import Mathlib

/-
Verification development for the mkvtag file-lifecycle engine
(src/mkvtag/file.py and src/mkvtag/tagger.py), as a shallow embedding.

Modelling conventions:
* Python dicts become ordered association lists `List (String × α)`;
  `assocFind` is `dict.get`, `assocUpd` is `dict[k] = v` (in-place update of an
  existing key keeps its position, a new key is appended), matching Python 3
  insertion-order semantics.
* Timestamps and sizes are `Nat` (seconds); `time.time()` is the tagger state
  field `now`, frozen during a pass.  Python float subtraction `now - t > c`
  agrees with truncated `Nat` subtraction for the comparisons used here (a
  negative difference is never `> c`, and `Nat` sub gives `0`, also never `> c`).
* The on-disk directory listing is a `List DiskFile` (the `glob("*.mkv")`
  result); `stat` of a tracked path succeeds exactly when the file name is in
  the listing (all tracked paths live in the watch directory).
* The persisted log file is `Option LogContent`: `none` is a missing file,
  `LogContent.obj` well-formed JSON-object content, `LogContent.badJson` text
  that is not well-formed JSON (this includes the empty string and
  whitespace-only text, which `json.loads` rejects), `LogContent.nonObj` valid
  JSON whose top level is not an object.
* Exceptions propagate through a `raised` flag; the external tagging command
  outcome and the stability predicates are inputs in `ProcEnv`.
* The rename pass is modelled with no cleanup pattern configured
  (`rename_exp = None`), under which `rename_file` is a no-op; the pytest-only
  divisor in `error_state` and the pytest TTL are not modelled.
-/

/-- Processing status of a tracked file (the `Status` enum of `mkvtag/typ.py`,
whose members are enumerated in the data model: `new`, `waiting`, `ready`,
`processing`, `done`, `failed`, `gone`). -/
inductive Status where
  | new
  | waiting
  | ready
  | processing
  | done
  | failed
  | gone
deriving DecidableEq, Repr

/-- One file of the watched directory listing, as seen by `glob` / `stat`. -/
structure DiskFile where
  name : String
  mtime : Nat
  size : Nat
deriving DecidableEq, Repr

/-- Result of `stat` on a path inside the watch directory. -/
def diskFind (dir : List DiskFile) (n : String) : Option DiskFile :=
  dir.find? (fun d => d.name == n)

/-- In-memory per-file record (the underscore fields of `File`, file.py 19-55). -/
structure FileRec where
  name : String
  mtime : Nat
  lastMtime : Nat
  size : Nat
  lastSize : Nat
  status : Status
  failedCount : Nat
deriving DecidableEq, Repr

/-- One value of the persisted JSON log object (`File.to_json`, file.py 219-226). -/
@[ext]
structure LogEntry where
  name : String
  mtime : Nat
  size : Nat
  failed_count : Nat
  status : Status
deriving DecidableEq, Repr

/-- Python `dict.get`: first binding of the key, if any. -/
def assocFind {α : Type} (l : List (String × α)) (k : String) : Option α :=
  match l with
  | [] => none
  | p :: rest => if p.1 = k then some p.2 else assocFind rest k

/-- Python `dict[k] = v`: replace an existing binding in place, else append. -/
def assocUpd {α : Type} (l : List (String × α)) (k : String) (v : α) : List (String × α) :=
  if (assocFind l k).isSome then
    l.map (fun p => if p.1 = k then (k, v) else p)
  else l ++ [(k, v)]

/-- Value produced by the `File.mtime` property (file.py 64-72): re-stat the
path when the file exists; on `FileNotFoundError` return
`self._mtime or self._last_mtime or 0.0`. -/
def File.mtimeVal (dir : List DiskFile) (f : FileRec) : Nat :=
  match diskFind dir f.name with
  | some d => d.mtime
  | none => if f.mtime ≠ 0 then f.mtime else f.lastMtime

/-- Value produced by the `File.size` property (file.py 88-96). -/
def File.sizeVal (dir : List DiskFile) (f : FileRec) : Nat :=
  match diskFind dir f.name with
  | some d => d.size
  | none => if f.size ≠ 0 then f.size else f.lastSize

/-- The `File.to_json` dict (file.py 219-226): `name`, the `mtime` and `size`
property values, `_failed_count` and `_status`. -/
def File.toJson (dir : List DiskFile) (f : FileRec) : LogEntry :=
  { name := f.name
    mtime := File.mtimeVal dir f
    size := File.sizeVal dir f
    failed_count := f.failedCount
    status := f.status }

/-- The `File.from_json` classmethod (file.py 202-217): construct, then
overwrite `_last_mtime`, `_mtime`, `_last_size`, `_size`, `_failed_count` and
`_status` from the parsed entry (the ISO-8601 round-trip of `mtime` is the
identity in this model). -/
def File.fromJson (e : LogEntry) : FileRec :=
  { name := e.name
    mtime := e.mtime
    lastMtime := e.mtime
    size := e.size
    lastSize := e.size
    status := e.status
    failedCount := e.failed_count }

/-- Keyword arguments accepted by `File.__init__` (file.py 23-36); `mtime` is
modelled already parsed to a timestamp. -/
structure InitKwargs where
  mtime : Option Nat := none
  size : Option Nat := none
  last_mtime : Option Nat := none
  last_size : Option Nat := none
  failed_count : Option Nat := none
  status : Option Status := none
deriving Repr

/-- The `File.__init__` constructor (file.py 19-55): apply the underscored
keyword arguments, fill `_mtime`/`_size` from `stat` (0 on a missing file) and
`_last_mtime`/`_last_size` from the current values when absent, then
unconditionally set `_status = "new"` and `_failed_count = 0` (lines 53-54). -/
def File.init (stat : Option DiskFile) (path : String) (kw : InitKwargs) : FileRec :=
  let m := match kw.mtime with
    | some v => v
    | none => match stat with
      | some d => d.mtime
      | none => 0
  let lm := match kw.last_mtime with
    | some v => v
    | none => m
  let s := match kw.size with
    | some v => v
    | none => match stat with
      | some d => d.size
      | none => 0
  let ls := match kw.last_size with
    | some v => v
    | none => s
  { name := path
    mtime := m
    lastMtime := lm
    size := s
    lastSize := ls
    status := Status.new
    failedCount := 0 }

/-- A `File` built from a directory listing entry, `File(f, self)` with no
keyword arguments (tagger.py 208). -/
def File.ofDisk (d : DiskFile) : FileRec :=
  File.init (some d) d.name {}

/-- The four `reject_because_*` conditions of the `File.status` setter
(file.py 128-152): whether a requested transition away from the logged status
is rejected. -/
def File.rejectStatus (loggedStatus value : Status) : Bool :=
  let rejectBecauseDoneOrGone :=
    (loggedStatus == Status.done || loggedStatus == Status.gone)
      && !(value == Status.new)
  let rejectBecauseWaiting :=
    loggedStatus == Status.waiting
      && !(value == Status.done || value == Status.ready || value == Status.processing)
  let rejectBecauseProcessing :=
    loggedStatus == Status.processing
      && !(value == Status.done || value == Status.ready || value == Status.failed)
  let rejectBecauseFailed :=
    loggedStatus == Status.failed
      && !(value == Status.new || value == Status.ready)
  rejectBecauseDoneOrGone || rejectBecauseWaiting || rejectBecauseProcessing
    || rejectBecauseFailed

/-- Contents of the persisted log file as the JSON parser classifies them. -/
inductive LogContent where
  | obj (entries : List (String × LogEntry))
  | badJson (raw : String)
  | nonObj (raw : String)
deriving DecidableEq, Repr

/-- State of one `MkvTagger` (tagger.py 24-58) together with the log file on
disk and the frozen clock. -/
structure Tagger where
  now : Nat
  timer : Nat
  exc : Bool
  errorTs : Nat
  logFileErrorCount : Nat
  logFile : Option LogContent
  logData : List (String × LogEntry)
  files : List (String × FileRec)
  isProcessing : Bool
  activeFile : Option String
deriving DecidableEq, Repr

/-- The `MkvTagger.error_state` property (tagger.py 121-130): true while less
than one error window (`args.timer`) has elapsed since the last recorded error
timestamp. -/
def MkvTagger.errorState (tg : Tagger) : Bool :=
  decide (tg.now - tg.errorTs < tg.timer)

/-- The `MkvTagger.logged_files` property (tagger.py 195-205): empty in the
error state, else `_log_data` re-hydrated through `File.from_json`, keyed by
each entry's `name` field. -/
def MkvTagger.loggedFiles (tg : Tagger) : List (String × FileRec) :=
  if MkvTagger.errorState tg then []
  else tg.logData.map (fun p => (p.2.name, File.fromJson p.2))

/-- Result of an operation that can propagate a JSON parse error. -/
structure ReadResult where
  tg : Tagger
  raised : Bool
deriving DecidableEq, Repr

/-- The `MkvTagger.handle_json_error` method (tagger.py 132-144): record the
error timestamp; with `autofix`, clear `_log_data`, delete the log file and
call `read_log` again (which, now inside the error window, only clears the
error counter, or — when the window has length zero — recreates the empty
log); finally re-raise when `exc` is configured.  The inner `read_log` call is
inlined one level, which is exact: it either returns in the error state or
takes the missing-file branch. -/
def MkvTagger.handleJsonError (tg : Tagger) (autofix : Bool) : ReadResult :=
  let tg1 : Tagger := { tg with errorTs := tg.now }
  let tg2 : Tagger :=
    if autofix then
      let tgA : Tagger := { tg1 with logData := [], logFile := none }
      if MkvTagger.errorState tgA then { tgA with logFileErrorCount := 0 }
      else { tgA with logFile := some (LogContent.obj []), logData := [] }
    else tg1
  { tg := tg2, raised := tg.exc }

/-- The `MkvTagger.read_log` method (tagger.py 154-193): a no-op that clears
the error counter while in the error state; recreate `{}` when the file is
missing; load well-formed object content into `_log_data`; hand malformed or
non-object content to `handle_json_error` with `autofix=True`. -/
def MkvTagger.readLog (tg : Tagger) : ReadResult :=
  if MkvTagger.errorState tg then
    { tg := { tg with logFileErrorCount := 0 }, raised := false }
  else
    match tg.logFile with
    | none =>
      { tg := { tg with logFile := some (LogContent.obj []), logData := [] }
        raised := false }
    | some (LogContent.obj entries) =>
      { tg := { tg with logData := entries }, raised := false }
    | some (LogContent.badJson _) => MkvTagger.handleJsonError tg true
    | some (LogContent.nonObj _) => MkvTagger.handleJsonError tg true

/-- Result of a `File.status` setter call. -/
structure SetResult where
  tg : Tagger
  file : FileRec
  raised : Bool
deriving DecidableEq, Repr

/-- The `File.status` setter (file.py 123-159) followed by `File.save_to_log`
(file.py 228-253): re-read the log, look the file up among `logged_files`,
replace a rejected value by the logged status, bump `_failed_count` when the
resulting value is `failed`, store the record in `tagger.files` and
`_log_data`, and rewrite the log file from `logged_files` updated with this
record. -/
def File.setStatus (dir : List DiskFile) (tg : Tagger) (f : FileRec) (v : Status) :
    SetResult :=
  let r := MkvTagger.readLog tg
  if r.raised then { tg := r.tg, file := f, raised := true }
  else
    let tg1 := r.tg
    let value :=
      match assocFind (MkvTagger.loggedFiles tg1) f.name with
      | some lf => if File.rejectStatus lf.status v then lf.status else v
      | none => v
    let f1 :=
      if value = Status.failed then { f with failedCount := f.failedCount + 1 } else f
    let f2 := { f1 with status := value }
    let tg2 := { tg1 with
      files := assocUpd tg1.files f.name f2
      logData := assocUpd tg1.logData f.name (File.toJson dir f2) }
    let saved := assocUpd (MkvTagger.loggedFiles tg2) f.name f2
    let tg3 := { tg2 with
      logFile := some (LogContent.obj
        (saved.map (fun p => (p.2.name, File.toJson dir p.2)))) }
    { tg := tg3, file := f2, raised := false }

/-- The `File.fail` method (file.py 165-166): assign `"failed"` through the
status setter. -/
def File.fail (dir : List DiskFile) (tg : Tagger) (f : FileRec) : SetResult :=
  File.setStatus dir tg f Status.failed

/-- The `_get_dir_files` listing (tagger.py 207-208). -/
def MkvTagger.dirFileRecs (dir : List DiskFile) : List (String × FileRec) :=
  dir.map (fun d => (d.name, File.ofDisk d))

/-- The `new_files` comprehension of scan (tagger.py 219-223): directory files
whose name is not among the logged files. -/
def MkvTagger.newFiles (tg : Tagger) (dir : List DiskFile) : List (String × FileRec) :=
  (MkvTagger.dirFileRecs dir).filter
    (fun p => (assocFind (MkvTagger.loggedFiles tg) p.1).isNone)

/-- The per-record marking loop of scan (tagger.py 227-235): a record whose
name is absent from the directory is set to `gone`; then a terminal status
(`done`/`gone`) held by the in-memory table for the same name wins. -/
def MkvTagger.markRec (dir : List DiskFile) (mem : List (String × FileRec))
    (n : String) (f : FileRec) : FileRec :=
  let f1 := if (diskFind dir n).isSome then f else { f with status := Status.gone }
  match assocFind mem n with
  | some m =>
    if m.status = Status.done ∨ m.status = Status.gone then { f1 with status := m.status }
    else f1
  | none => f1

/-- Grace period for `gone` records (tagger.py 239, non-pytest value). -/
def tooOldTtl : Nat := 86400

/-- The `is_too_old` predicate of scan (tagger.py 238-245). -/
def MkvTagger.isTooOld (now : Nat) (dir : List DiskFile) (f : FileRec) : Bool :=
  (f.status == Status.gone) && decide (tooOldTtl < now - File.mtimeVal dir f)

/-- The reset loop body of scan (tagger.py 249-254): on a reset pass, a record
that is not `done`/`gone`, whose backing path exists, whose mtime is more than
60 seconds old and whose failure count is below 3 is forced back to `new`. -/
def MkvTagger.resetStep (now : Nat) (dir : List DiskFile) (reset : Bool) (f : FileRec) :
    FileRec :=
  if reset = true
      ∧ ¬(f.status = Status.done ∨ f.status = Status.gone)
      ∧ (diskFind dir f.name).isSome = true
      ∧ 60 < now - File.mtimeVal dir f
      ∧ f.failedCount < 3
  then { f with status := Status.new }
  else f

/-- Scan up to the pruning step: merge logged and new files, mark, prune. -/
def MkvTagger.preReset (tg : Tagger) (dir : List DiskFile) : List (String × FileRec) :=
  ((MkvTagger.loggedFiles tg ++ MkvTagger.newFiles tg dir).map
      (fun p => (p.1, MkvTagger.markRec dir tg.files p.1 p.2))).filter
    (fun p => !(MkvTagger.isTooOld tg.now dir p.2))

/-- The merged record set produced by scan (tagger.py 216-254). -/
def MkvTagger.mergedOf (tg : Tagger) (dir : List DiskFile) (reset : Bool) :
    List (String × FileRec) :=
  (MkvTagger.preReset tg dir).map
    (fun p => (p.1, MkvTagger.resetStep tg.now dir reset p.2))

/-- The log object written at the end of scan (tagger.py 259-262), keyed by
each record's `name`. -/
def MkvTagger.scanLog (tg : Tagger) (dir : List DiskFile) (reset : Bool) :
    List (String × LogEntry) :=
  (MkvTagger.mergedOf tg dir reset).map (fun p => (p.2.name, File.toJson dir p.2))

/-- The `MkvTagger.scan` method (tagger.py 210-270): empty no-op in the error
state; otherwise the merged set is computed, written to the log file and
re-read into `_log_data`, and returned. -/
def MkvTagger.scan (tg : Tagger) (dir : List DiskFile) (reset : Bool) :
    Tagger × List (String × FileRec) :=
  if MkvTagger.errorState tg then (tg, [])
  else
    ({ tg with
        logFile := some (LogContent.obj (MkvTagger.scanLog tg dir reset))
        logData := MkvTagger.scanLog tg dir reset },
      MkvTagger.mergedOf tg dir reset)

/-- The `MkvTagger.refresh` method (tagger.py 60-69): no-op in the error
state; else `read_log`, `scan`, and replace `files` by the scan result when it
differs. -/
def MkvTagger.refresh (tg : Tagger) (dir : List DiskFile) : ReadResult :=
  if MkvTagger.errorState tg then { tg := tg, raised := false }
  else
    let r := MkvTagger.readLog tg
    if r.raised then r
    else
      let s := MkvTagger.scan r.tg dir false
      if s.1.files = s.2 then { tg := s.1, raised := false }
      else { tg := { s.1 with files := s.2 }, raised := false }

/-- Environment of one `process_file` call: the directory listing, the
configuration flag and probe output of the precheck, the stability predicates
(`was_recently_modified or size_changed_since_last_check`), whether stdout is
a terminal, and the external command's outcome. -/
structure ProcEnv where
  dir : List DiskFile
  precheck : Bool
  bitrate : String
  unstable : Bool
  isatty : Bool
  cmdSuccess : Bool
deriving Repr

/-- Result of one `process_file` call; `invoked` records whether the external
tagging command was started. -/
structure ProcResult where
  tg : Tagger
  file : FileRec
  invoked : Bool
  raised : Bool
deriving DecidableEq, Repr

/-- Lines 384-431 of `process_file`: set the single-flight markers, transition
to `processing`, invoke the command (in a terminal, output is streamed and no
status is recorded), record `done` on success or `fail()` on failure, and
clear the markers. -/
def MkvTagger.processBody (tg : Tagger) (env : ProcEnv) (f : FileRec) : ProcResult :=
  let tgP := { tg with isProcessing := true, activeFile := some f.name }
  let r1 := File.setStatus env.dir tgP f Status.processing
  if r1.raised then { tg := r1.tg, file := r1.file, invoked := false, raised := true }
  else if env.isatty then
    { tg := { r1.tg with isProcessing := false, activeFile := none }
      file := r1.file, invoked := true, raised := false }
  else if env.cmdSuccess then
    let r2 := File.setStatus env.dir r1.tg r1.file Status.done
    { tg := { r2.tg with isProcessing := false, activeFile := none }
      file := r2.file, invoked := true, raised := r2.raised }
  else
    let r2 := File.fail env.dir r1.tg r1.file
    { tg := { r2.tg with isProcessing := false, activeFile := none }
      file := r2.file, invoked := true, raised := r2.raised }

/-- Lines 374-386 of `process_file`: gate a `failed` record behind the retry
threshold and transition it to `ready` before processing. -/
def MkvTagger.processReady (tg : Tagger) (env : ProcEnv) (f : FileRec) : ProcResult :=
  if f.status = Status.failed then
    if 3 ≤ f.failedCount then { tg := tg, file := f, invoked := false, raised := false }
    else
      let r := File.setStatus env.dir tg f Status.ready
      if r.raised then { tg := r.tg, file := r.file, invoked := false, raised := true }
      else MkvTagger.processBody r.tg env r.file
  else MkvTagger.processBody tg env f

/-- Lines 359-372 of `process_file`: the single-flight check and the
stability/waiting gate. -/
def MkvTagger.processAfterGone (tg : Tagger) (env : ProcEnv) (f : FileRec) : ProcResult :=
  if tg.isProcessing = true ∨ tg.activeFile = some f.name then
    { tg := tg, file := f, invoked := false, raised := false }
  else if f.status = Status.waiting then
    if env.unstable then { tg := tg, file := f, invoked := false, raised := false }
    else
      let r := File.setStatus env.dir tg f Status.ready
      if r.raised then { tg := r.tg, file := r.file, invoked := false, raised := true }
      else MkvTagger.processReady r.tg env r.file
  else if env.unstable then
    let r := File.setStatus env.dir tg f Status.waiting
    { tg := r.tg, file := r.file, invoked := false, raised := r.raised }
  else MkvTagger.processReady tg env f

/-- Lines 353-357 of `process_file`: a `gone` record whose file is present is
transitioned to `new` before continuing. -/
def MkvTagger.processCont (tg : Tagger) (env : ProcEnv) (f : FileRec) : ProcResult :=
  if f.status = Status.gone then
    if (diskFind env.dir f.name).isSome = false then
      { tg := tg, file := f, invoked := false, raised := false }
    else
      let r := File.setStatus env.dir tg f Status.new
      if r.raised then { tg := r.tg, file := r.file, invoked := false, raised := true }
      else MkvTagger.processAfterGone r.tg env r.file
  else MkvTagger.processAfterGone tg env f

/-- The `MkvTagger.process_file` method (tagger.py 309-431): force `gone` on a
missing backing file (before any other check); stop in the error state; stop
on a terminal record (`done`, or `failed_count >= 3`); short-circuit to `done`
when the precheck reports existing bitrate information; adopt a terminal
logged status; then continue with the state machine. -/
def MkvTagger.processFile (tg : Tagger) (env : ProcEnv) (f : FileRec) : ProcResult :=
  if (diskFind env.dir f.name).isSome = false then
    let r := File.setStatus env.dir tg f Status.gone
    { tg := r.tg, file := r.file, invoked := false, raised := r.raised }
  else if MkvTagger.errorState tg then
    { tg := tg, file := f, invoked := false, raised := false }
  else if f.status = Status.done ∨ 3 ≤ f.failedCount then
    { tg := tg, file := f, invoked := false, raised := false }
  else if env.precheck = true ∧ env.bitrate ≠ "" then
    let r := File.setStatus env.dir tg f Status.done
    { tg := r.tg, file := r.file, invoked := false, raised := r.raised }
  else
    match assocFind (MkvTagger.loggedFiles tg) f.name with
    | some lf =>
      if lf.status = Status.done ∨ lf.status = Status.gone then
        { tg := tg, file := { f with status := lf.status }, invoked := false
          raised := false }
      else MkvTagger.processCont tg env f
    | none => MkvTagger.processCont tg env f

/-! ### Generic facts about the embedding used by several claims -/

instance : Fintype Status :=
  ⟨⟨[Status.new, Status.waiting, Status.ready, Status.processing,
      Status.done, Status.failed, Status.gone], by decide⟩,
    by intro x; cases x <;> decide⟩

/-- Reading a well-formed log object outside the error state loads it into
`_log_data` and raises nothing. -/
theorem readLog_obj (tg : Tagger) (es : List (String × LogEntry))
    (herr : MkvTagger.errorState tg = false)
    (hfile : tg.logFile = some (LogContent.obj es)) :
    MkvTagger.readLog tg = { tg := { tg with logData := es }, raised := false } := by
  unfold MkvTagger.readLog
  rw [herr, hfile]
  simp

/-- The record produced by the status setter, as a function of the logged
lookup: the possibly-rejected value, with the failure counter bumped exactly
when the resulting value is `failed`. -/
theorem setStatus_file (dir : List DiskFile) (tg : Tagger) (f : FileRec) (v : Status)
    (es : List (String × LogEntry))
    (herr : MkvTagger.errorState tg = false)
    (hfile : tg.logFile = some (LogContent.obj es)) :
    (File.setStatus dir tg f v).file =
      (match assocFind (MkvTagger.loggedFiles { tg with logData := es }) f.name with
        | some lf =>
          if File.rejectStatus lf.status v then
            { f with
              status := lf.status
              failedCount :=
                if lf.status = Status.failed then f.failedCount + 1 else f.failedCount }
          else
            { f with
              status := v
              failedCount := if v = Status.failed then f.failedCount + 1 else f.failedCount }
        | none =>
          { f with
            status := v
            failedCount := if v = Status.failed then f.failedCount + 1 else f.failedCount }) := by
  unfold File.setStatus
  rw [readLog_obj tg es herr hfile]
  cases h : assocFind (MkvTagger.loggedFiles { tg with logData := es }) f.name with
  | none =>
    simp only [h]
    by_cases hv : v = Status.failed <;> simp [hv]
  | some lf =>
    by_cases hr : File.rejectStatus lf.status v = true
    · simp only [h, hr, if_true]
      by_cases hl : lf.status = Status.failed <;> simp [hl]
    · have hr2 : File.rejectStatus lf.status v = false := by
        simpa using hr
      simp only [h, hr2, Bool.false_eq_true, if_false]
      by_cases hv : v = Status.failed <;> simp [hv]

/-! ### Concrete states used by witnesses and counterexamples -/

def nmA : String := "a.mkv"

def entryDone : LogEntry :=
  { name := nmA, mtime := 1000, size := 5, failed_count := 0, status := Status.done }

def entryWaiting : LogEntry :=
  { name := nmA, mtime := 1000, size := 5, failed_count := 0, status := Status.waiting }

def entryFailed3 : LogEntry :=
  { name := nmA, mtime := 1000, size := 5, failed_count := 3, status := Status.failed }

def fProc : FileRec :=
  { name := nmA, mtime := 1000, lastMtime := 1000, size := 5, lastSize := 5
    status := Status.processing, failedCount := 0 }

def fFailed3 : FileRec :=
  { name := nmA, mtime := 1000, lastMtime := 1000, size := 5, lastSize := 5
    status := Status.failed, failedCount := 3 }

def tgDone : Tagger :=
  { now := 2000000, timer := 30, exc := false, errorTs := 0, logFileErrorCount := 0
    logFile := some (LogContent.obj [(nmA, entryDone)]), logData := [(nmA, entryDone)]
    files := [], isProcessing := false, activeFile := none }

def tgWaiting : Tagger :=
  { tgDone with
    logFile := some (LogContent.obj [(nmA, entryWaiting)])
    logData := [(nmA, entryWaiting)] }

def tgFailed3 : Tagger :=
  { tgDone with
    logFile := some (LogContent.obj [(nmA, entryFailed3)])
    logData := [(nmA, entryFailed3)] }

/-! ### C10 -/

/-- C10: every `File.__init__` call yields a record with status `new` and
`failed_count = 0`, whatever keyword arguments were supplied (the constructor
overwrites both fields after applying the kwargs); persisted values survive
only through `from_json`'s post-construction assignments, which do restore the
entry's status and failure count. -/
theorem c10_constructor_overwrites :
    (∀ (stat : Option DiskFile) (path : String) (kw : InitKwargs),
      (File.init stat path kw).status = Status.new
        ∧ (File.init stat path kw).failedCount = 0)
    ∧ (∀ e : LogEntry,
      (File.fromJson e).status = e.status
        ∧ (File.fromJson e).failedCount = e.failed_count) :=
  ⟨fun _ _ _ => ⟨rfl, rfl⟩, fun _ => ⟨rfl, rfl⟩⟩

/-! ### C1 -/

/-- C1: the status setter consults the logged record for the file's name and
keeps the logged status unless the requested value is among the allowed
transitions: from `waiting` only `{done, ready, processing}`, from `failed`
only `{new, ready}`, from `done` or `gone` only `{new}`, from `processing`
only `{done, ready, failed}`; any other request leaves the stored status equal
to the logged status. -/
theorem c1_setter_rejects_regressions (dir : List DiskFile) (tg : Tagger) (f : FileRec)
    (v : Status) (es : List (String × LogEntry)) (lf : FileRec)
    (herr : MkvTagger.errorState tg = false)
    (hfile : tg.logFile = some (LogContent.obj es))
    (hlog : assocFind (MkvTagger.loggedFiles { tg with logData := es }) f.name = some lf) :
    (File.setStatus dir tg f v).file.status =
      (match lf.status with
        | Status.waiting =>
          if v = Status.done ∨ v = Status.ready ∨ v = Status.processing then v
          else Status.waiting
        | Status.failed =>
          if v = Status.new ∨ v = Status.ready then v else Status.failed
        | Status.done => if v = Status.new then v else Status.done
        | Status.gone => if v = Status.new then v else Status.gone
        | Status.processing =>
          if v = Status.done ∨ v = Status.ready ∨ v = Status.failed then v
          else Status.processing
        | _ => v) := by
  rw [setStatus_file dir tg f v es herr hfile, hlog]
  cases hs : lf.status <;> cases v <;> simp [File.rejectStatus, hs]

/-- Witness for C1: with logged status `waiting`, a request for `done` is
accepted. -/
theorem c1_setter_rejects_regressions_witness :
    (File.setStatus [] tgWaiting fProc Status.done).file.status = Status.done := by
  have h := c1_setter_rejects_regressions [] tgWaiting fProc Status.done
    [(nmA, entryWaiting)] (File.fromJson entryWaiting) (by decide) rfl (by decide)
  exact h.trans (by decide)

/-! ### C6 -/

/-- Counterexample to C6: `fail()` on a record whose logged status is `done`
leaves the status `done` and the failure count unchanged — it neither
increments `failedCount` nor produces status `failed`. -/
theorem c6_fail_counterexample :
    (File.fail [] tgDone fProc).file.status = Status.done
      ∧ (File.fail [] tgDone fProc).file.failedCount = fProc.failedCount := by
  decide

/-- C6 amended: `fail()` requests `failed` through the status setter.  When no
logged record exists for the name, or the logged status is `new`, `ready`,
`processing` or `failed`, the count increments by exactly one and the status
becomes `failed`; when the logged status is `waiting`, `done` or `gone`, the
setter keeps the logged status and the count is unchanged. -/
theorem c6_fail_amended (dir : List DiskFile) (tg : Tagger) (f : FileRec)
    (es : List (String × LogEntry))
    (herr : MkvTagger.errorState tg = false)
    (hfile : tg.logFile = some (LogContent.obj es)) :
    (File.fail dir tg f).file =
      (match assocFind (MkvTagger.loggedFiles { tg with logData := es }) f.name with
        | some lf =>
          if lf.status = Status.waiting ∨ lf.status = Status.done ∨ lf.status = Status.gone
          then { f with status := lf.status }
          else { f with status := Status.failed, failedCount := f.failedCount + 1 }
        | none => { f with status := Status.failed, failedCount := f.failedCount + 1 }) := by
  unfold File.fail
  rw [setStatus_file dir tg f Status.failed es herr hfile]
  cases h : assocFind (MkvTagger.loggedFiles { tg with logData := es }) f.name with
  | none => simp
  | some lf => cases hs : lf.status <;> simp [File.rejectStatus, hs]

def entryProcessing : LogEntry :=
  { name := nmA, mtime := 1000, size := 5, failed_count := 0, status := Status.processing }

def tgProcLogged : Tagger :=
  { tgDone with
    logFile := some (LogContent.obj [(nmA, entryProcessing)])
    logData := [(nmA, entryProcessing)] }

/-- Witness for C6 (amended): with logged status `processing`, `fail()`
increments the count and records `failed`. -/
theorem c6_fail_amended_witness :
    (File.fail [] tgProcLogged fProc).file =
      { fProc with status := Status.failed, failedCount := 1 } := by
  have h := c6_fail_amended [] tgProcLogged fProc [(nmA, entryProcessing)]
    (by decide) rfl
  exact h.trans (by decide)

/-! ### C4 -/

/-- C4: on structurally corrupt log content (malformed JSON or a non-object
top level), `read_log` raises exactly when strict mode (`exc`) is configured;
in either mode the in-memory mapping is reset to empty and the corrupt
content is discarded (the file is deleted, or — when the error window has
length zero — immediately recreated as the empty object); the first read
after the error window has elapsed leaves an empty log object on disk and an
empty mapping, and the engine continues. -/
theorem c4_corrupt_log_policies (tg : Tagger) (raw : String)
    (herr : MkvTagger.errorState tg = false)
    (hbad : tg.logFile = some (LogContent.badJson raw)
      ∨ tg.logFile = some (LogContent.nonObj raw)) :
    (MkvTagger.readLog tg).raised = tg.exc
    ∧ (MkvTagger.readLog tg).tg.logData = []
    ∧ ((MkvTagger.readLog tg).tg.logFile = none
        ∨ (MkvTagger.readLog tg).tg.logFile = some (LogContent.obj []))
    ∧ (∀ n2 : Nat,
        MkvTagger.errorState { (MkvTagger.readLog tg).tg with now := n2 } = false →
          (MkvTagger.readLog { (MkvTagger.readLog tg).tg with now := n2 }).tg.logFile
              = some (LogContent.obj [])
          ∧ (MkvTagger.readLog { (MkvTagger.readLog tg).tg with now := n2 }).tg.logData = []
          ∧ (MkvTagger.readLog { (MkvTagger.readLog tg).tg with now := n2 }).raised = false) := by
  have hres : MkvTagger.readLog tg = MkvTagger.handleJsonError tg true := by
    unfold MkvTagger.readLog
    rw [herr]
    rcases hbad with h | h <;> rw [h] <;> rfl
  by_cases hw :
      MkvTagger.errorState { tg with errorTs := tg.now, logData := [], logFile := none } = true
  · have h2 : MkvTagger.handleJsonError tg true =
        { tg := { tg with
            errorTs := tg.now, logFileErrorCount := 0, logFile := none, logData := [] }
          raised := tg.exc } := by
      unfold MkvTagger.handleJsonError
      simp [hw]
    rw [hres, h2]
    refine ⟨rfl, rfl, Or.inl rfl, ?_⟩
    intro n2 herr2
    simp only at herr2
    refine ⟨?_, ?_, ?_⟩ <;>
      · unfold MkvTagger.readLog
        simp [herr2]
  · have hw2 : MkvTagger.errorState
        { tg with errorTs := tg.now, logData := [], logFile := none } = false := by
      simpa using hw
    have h2 : MkvTagger.handleJsonError tg true =
        { tg := { tg with
            errorTs := tg.now, logFile := some (LogContent.obj []), logData := [] }
          raised := tg.exc } := by
      unfold MkvTagger.handleJsonError
      simp [hw2]
    rw [hres, h2]
    refine ⟨rfl, rfl, Or.inr rfl, ?_⟩
    intro n2 herr2
    simp only at herr2
    refine ⟨?_, ?_, ?_⟩ <;>
      · unfold MkvTagger.readLog
        simp [herr2]

def rawBad : String := "not json"

def tgBadLog : Tagger :=
  { tgDone with logFile := some (LogContent.badJson rawBad) }

/-- Witness for C4: a lenient tagger reading a malformed log raises nothing
and ends with an empty mapping. -/
theorem c4_corrupt_log_policies_witness :
    (MkvTagger.readLog tgBadLog).raised = false
      ∧ (MkvTagger.readLog tgBadLog).tg.logData = [] := by
  have h := c4_corrupt_log_policies tgBadLog rawBad (by decide) (Or.inl rfl)
  exact ⟨h.1.trans rfl, h.2.1⟩

/-! ### C9 -/

def emptyRaw : String := ""

def tgMissingLog : Tagger :=
  { tgDone with logFile := none, logData := [] }

def tgEmptyLog : Tagger :=
  { tgDone with logFile := some (LogContent.badJson emptyRaw), logData := [] }

/-- C9 (code divergence): a missing log file is indeed treated as the empty
mapping — `read_log` recreates the empty object and continues without
entering the error state — but an existing log file whose content is the
empty string is not: `json.loads` rejects the empty string, so `read_log`
takes the structural-corruption path, records the error timestamp (entering
the timed error state) and deletes the file, contradicting the claim that
empty content is handled like a missing file (the `log_file_empty_or_missing`
helper of tagger.py 146-152 is never called). -/
theorem c9_empty_vs_missing_log :
    ((MkvTagger.readLog tgMissingLog).tg.logData = []
      ∧ (MkvTagger.readLog tgMissingLog).tg.logFile = some (LogContent.obj [])
      ∧ (MkvTagger.readLog tgMissingLog).tg.errorTs = 0
      ∧ MkvTagger.errorState (MkvTagger.readLog tgMissingLog).tg = false
      ∧ (MkvTagger.readLog tgMissingLog).raised = false)
    ∧ ((MkvTagger.readLog tgEmptyLog).tg.errorTs = tgEmptyLog.now
      ∧ MkvTagger.errorState (MkvTagger.readLog tgEmptyLog).tg = true
      ∧ (MkvTagger.readLog tgEmptyLog).tg.logFile = none) := by
  decide

/-! ### C2 -/

def envMissing : ProcEnv :=
  { dir := [], precheck := false, bitrate := "", unstable := false
    isatty := false, cmdSuccess := true }

def dskA : List DiskFile :=
  [{ name := nmA, mtime := 1000, size := 5 }]

def envOnDisk : ProcEnv :=
  { envMissing with dir := dskA }

/-- Counterexample to C2: a file that is terminal (`failed`, `failedCount = 3`)
does stay un-processed, but a `process_file` call while its backing file is
missing pushes `failedCount` to 4: the `"gone"` request is rejected by the
setter (logged status `failed`), and the post-rejection value `failed`
triggers the counter increment, so `failedCount` exceeds 3 without any retry
or command invocation. -/
theorem c2_gives_up_counterexample :
    fFailed3.status = Status.failed ∧ fFailed3.failedCount = 3
    ∧ (MkvTagger.processFile tgFailed3 envMissing fFailed3).invoked = false
    ∧ (MkvTagger.processFile tgFailed3 envMissing fFailed3).file.failedCount = 4
    ∧ (MkvTagger.processFile tgFailed3 envMissing fFailed3).file.status = Status.failed := by
  decide

/-- C2 amended: once `failedCount` has reached 3 the file is never processed
again — no `process_file` call invokes the external command, a call while the
backing file exists is a complete no-op, and the startup reset pass never
forces the record back to `new` — but `failedCount` itself is not frozen: a
`process_file` call on a missing backing file re-records a failure through
the setter's rejection of `gone` (see the counterexample). -/
theorem c2_terminal_failed_amended :
    (∀ (tg : Tagger) (env : ProcEnv) (f : FileRec), 3 ≤ f.failedCount →
      (MkvTagger.processFile tg env f).invoked = false)
    ∧ (∀ (tg : Tagger) (env : ProcEnv) (f : FileRec), 3 ≤ f.failedCount →
      (diskFind env.dir f.name).isSome = true →
      MkvTagger.processFile tg env f =
        { tg := tg, file := f, invoked := false, raised := false })
    ∧ (∀ (now : Nat) (dir : List DiskFile) (reset : Bool) (f : FileRec),
      3 ≤ f.failedCount → MkvTagger.resetStep now dir reset f = f) := by
  refine ⟨?_, ?_, ?_⟩
  · intro tg env f hf
    unfold MkvTagger.processFile
    by_cases hd : (diskFind env.dir f.name).isSome = false
    · simp [hd]
    · have hd2 : (diskFind env.dir f.name).isSome = true := by
        cases hx : (diskFind env.dir f.name).isSome
        · exact absurd hx hd
        · rfl
      by_cases he : MkvTagger.errorState tg = true
      · simp [hd2, he]
      · have he2 : MkvTagger.errorState tg = false := by
          simpa using he
        simp [hd2, he2, hf]
  · intro tg env f hf hd
    unfold MkvTagger.processFile
    by_cases he : MkvTagger.errorState tg = true
    · simp [hd, he]
    · have he2 : MkvTagger.errorState tg = false := by
        simpa using he
      simp [hd, he2, hf]
  · intro now dir reset f hf
    unfold MkvTagger.resetStep
    have h3 : ¬(f.failedCount < 3) := by omega
    simp [h3]

/-- Witness for C2 (amended): a terminal failed record whose file is on disk
is left untouched by `process_file`. -/
theorem c2_terminal_failed_amended_witness :
    MkvTagger.processFile tgFailed3 envOnDisk fFailed3 =
      { tg := tgFailed3, file := fFailed3, invoked := false, raised := false } :=
  c2_terminal_failed_amended.2.1 tgFailed3 envOnDisk fFailed3 (by decide) (by decide)

/-! ### C7 -/

def tgErr : Tagger :=
  { tgFailed3 with errorTs := 1999990 }

/-- C7 amended: inside the timed error state, `refresh` and `scan` are
no-ops, `read_log` only clears an internal error counter, and `process_file`
is a no-op provided the file's backing path exists; a `process_file` call on
a missing backing file mutates state even in the error state (see the
counterexample). -/
theorem c7_error_state_amended (tg : Tagger) (dir : List DiskFile)
    (herr : MkvTagger.errorState tg = true) :
    MkvTagger.refresh tg dir = { tg := tg, raised := false }
    ∧ (∀ reset : Bool, MkvTagger.scan tg dir reset = (tg, []))
    ∧ MkvTagger.readLog tg = { tg := { tg with logFileErrorCount := 0 }, raised := false }
    ∧ (∀ (env : ProcEnv) (f : FileRec), (diskFind env.dir f.name).isSome = true →
      MkvTagger.processFile tg env f =
        { tg := tg, file := f, invoked := false, raised := false }) := by
  refine ⟨?_, ?_, ?_, ?_⟩
  · unfold MkvTagger.refresh
    simp [herr]
  · intro reset
    unfold MkvTagger.scan
    simp [herr]
  · unfold MkvTagger.readLog
    simp [herr]
  · intro env f hd
    unfold MkvTagger.processFile
    simp [hd, herr]

/-- Witness for C7 (amended): a tagger inside the error window responds to
`read_log` with only the error-counter reset. -/
theorem c7_error_state_amended_witness :
    MkvTagger.readLog tgErr =
      { tg := { tgErr with logFileErrorCount := 0 }, raised := false } :=
  (c7_error_state_amended tgErr [] (by decide)).2.2.1

/-- Counterexample to C7: in the error state, `process_file` on a record
whose backing file is missing is not a no-op — the `path.exists()` check runs
before the error-state check, so the record is forced to `gone`, the
in-memory table is updated and the log file is rewritten (clobbered from the
empty `logged_files` view of the error state). -/
theorem c7_error_state_counterexample :
    MkvTagger.errorState tgErr = true
    ∧ (diskFind envMissing.dir fFailed3.name).isSome = false
    ∧ (MkvTagger.processFile tgErr envMissing fFailed3).tg.files ≠ tgErr.files
    ∧ (MkvTagger.processFile tgErr envMissing fFailed3).tg.logFile ≠ tgErr.logFile
    ∧ (MkvTagger.processFile tgErr envMissing fFailed3).file.status ≠ fFailed3.status := by
  decide

/-! ### Structure of the scan pipeline (used by C5, C3 and C8) -/

/-- The status computed by the marking loop, as a function of the in-memory
lookup, disk presence and the record's own status. -/
def markStatus (t : Option Status) (onDisk : Bool) (s : Status) : Status :=
  let s1 := if onDisk then s else Status.gone
  match t with
  | some m => if m = Status.done ∨ m = Status.gone then m else s1
  | none => s1

theorem markRec_eq (dir : List DiskFile) (mem : List (String × FileRec)) (n : String)
    (f : FileRec) :
    MkvTagger.markRec dir mem n f =
      { f with status :=
          markStatus ((assocFind mem n).map FileRec.status) (diskFind dir n).isSome f.status } := by
  unfold MkvTagger.markRec markStatus
  cases hm : assocFind mem n <;> cases hd : diskFind dir n <;>
    simp [hm, hd] <;> split_ifs <;> rfl

theorem mem_input_key (tg : Tagger) (dir : List DiskFile) (p : String × FileRec)
    (hp : p ∈ MkvTagger.loggedFiles tg ++ MkvTagger.newFiles tg dir) : p.1 = p.2.name := by
  rcases List.mem_append.mp hp with h | h
  · unfold MkvTagger.loggedFiles at h
    split at h
    · simp at h
    · obtain ⟨q, _, hq⟩ := List.mem_map.mp h
      have h1 : q.2.name = p.1 := congrArg Prod.fst hq
      have h2 : File.fromJson q.2 = p.2 := congrArg Prod.snd hq
      rw [← h1, ← h2]
      rfl
  · unfold MkvTagger.newFiles at h
    have h2 := List.mem_filter.mp h
    unfold MkvTagger.dirFileRecs at h2
    obtain ⟨d, _, hd⟩ := List.mem_map.mp h2.1
    have h1 : d.name = p.1 := congrArg Prod.fst hd
    have h3 : File.ofDisk d = p.2 := congrArg Prod.snd hd
    rw [← h1, ← h3]
    rfl

theorem preReset_mem_src (tg : Tagger) (dir : List DiskFile) (q : String × FileRec)
    (h : q ∈ MkvTagger.preReset tg dir) :
    ∃ p, p ∈ MkvTagger.loggedFiles tg ++ MkvTagger.newFiles tg dir
      ∧ p.1 = q.1
      ∧ MkvTagger.markRec dir tg.files p.1 p.2 = q.2
      ∧ MkvTagger.isTooOld tg.now dir q.2 = false := by
  unfold MkvTagger.preReset at h
  obtain ⟨hmap, hkeep⟩ := List.mem_filter.mp h
  obtain ⟨p, hp, hpe⟩ := List.mem_map.mp hmap
  have h1 := congrArg Prod.fst hpe
  have h2 := congrArg Prod.snd hpe
  exact ⟨p, hp, h1, h2, by simpa using hkeep⟩

theorem preReset_key (tg : Tagger) (dir : List DiskFile) (n : String) (f : FileRec)
    (h : (n, f) ∈ MkvTagger.preReset tg dir) : n = f.name := by
  obtain ⟨p, hp, h1, h2, -⟩ := preReset_mem_src tg dir (n, f) h
  have h1a : p.1 = n := h1
  have h2a : MkvTagger.markRec dir tg.files p.1 p.2 = f := h2
  have hk := mem_input_key tg dir p hp
  have hname : f.name = p.2.name := by
    rw [← h2a, markRec_eq]
  rw [hname, ← hk, h1a]

theorem preReset_onDisk (tg : Tagger) (dir : List DiskFile) (n : String) (f : FileRec)
    (h : (n, f) ∈ MkvTagger.preReset tg dir)
    (h1 : ¬(f.status = Status.done ∨ f.status = Status.gone)) :
    (diskFind dir n).isSome = true := by
  obtain ⟨p, hp, hk, h2, -⟩ := preReset_mem_src tg dir (n, f) h
  have hka : p.1 = n := hk
  have h2a : MkvTagger.markRec dir tg.files p.1 p.2 = f := h2
  cases hd : (diskFind dir p.1).isSome with
  | true => rw [← hka]; exact hd
  | false =>
    exfalso
    apply h1
    have hst : f.status =
        markStatus ((assocFind tg.files p.1).map FileRec.status) false p.2.status := by
      rw [← h2a, markRec_eq, hd]
    rw [hst]
    unfold markStatus
    cases hm : (assocFind tg.files p.1).map FileRec.status with
    | none => right; rfl
    | some m =>
      by_cases hms : m = Status.done ∨ m = Status.gone
      · simp [hms]
      · simp [hms]

/-! ### C5 -/

/-- C5: at the reset step of a reset scan, every surviving record that is not
`done`/`gone`, whose mtime is more than 60 seconds old and whose failure
count is below 3 is forced to `new`; records that are `done`/`gone` or have
`failedCount >= 3` are left unchanged.  The `path.exists()` condition in the
code imposes no further restriction at this point: every record reaching the
reset step with a non-terminal status is backed by a file in the directory
listing (third conjunct ties the step to the scan result). -/
theorem c5_reset_to_new (tg : Tagger) (dir : List DiskFile) (n : String) (f : FileRec)
    (hmem : (n, f) ∈ MkvTagger.preReset tg dir) :
    (¬(f.status = Status.done ∨ f.status = Status.gone) →
      60 < tg.now - File.mtimeVal dir f → f.failedCount < 3 →
      MkvTagger.resetStep tg.now dir true f = { f with status := Status.new })
    ∧ ((f.status = Status.done ∨ f.status = Status.gone ∨ 3 ≤ f.failedCount) →
      MkvTagger.resetStep tg.now dir true f = f)
    ∧ (MkvTagger.errorState tg = false →
      (MkvTagger.scan tg dir true).2 =
        (MkvTagger.preReset tg dir).map
          (fun p => (p.1, MkvTagger.resetStep tg.now dir true p.2))) := by
  refine ⟨?_, ?_, ?_⟩
  · intro hst hold hfc
    have hd : (diskFind dir f.name).isSome = true := by
      rw [← preReset_key tg dir n f hmem]
      exact preReset_onDisk tg dir n f hmem hst
    unfold MkvTagger.resetStep
    rw [if_pos ⟨rfl, hst, hd, hold, hfc⟩]
  · intro h
    unfold MkvTagger.resetStep
    rw [if_neg]
    rintro ⟨-, hns, -, -, hlt⟩
    rcases h with h | h | h
    · exact hns (Or.inl h)
    · exact hns (Or.inr h)
    · omega
  · intro herr
    unfold MkvTagger.scan MkvTagger.mergedOf
    simp [herr]

/-- Witness for C5: a logged `processing` record backed by an old on-disk
file and with no failures is forced back to `new` by the reset step. -/
theorem c5_reset_to_new_witness :
    MkvTagger.resetStep tgProcLogged.now dskA true (File.fromJson entryProcessing) =
      { File.fromJson entryProcessing with status := Status.new } := by
  have h := c5_reset_to_new tgProcLogged dskA nmA (File.fromJson entryProcessing)
    (by decide)
  exact h.1 (by decide) (by decide) (by decide)

/-! ### C3 -/

def dskB : List DiskFile :=
  [{ name := nmA, mtime := 1950000, size := 5 }]

def entryDoneB : LogEntry :=
  { name := nmA, mtime := 1950000, size := 5, failed_count := 0, status := Status.done }

def fGoneB : FileRec :=
  { name := nmA, mtime := 1950000, lastMtime := 1950000, size := 5, lastSize := 5
    status := Status.gone, failedCount := 0 }

def tgC3 : Tagger :=
  { tgDone with
    logFile := some (LogContent.obj [(nmA, entryDoneB)])
    logData := [(nmA, entryDoneB)]
    files := [(nmA, fGoneB)] }

/-- Counterexample to C3: a logged `done` record whose backing file is on
disk is clobbered to `gone` by scan when the in-memory table holds a `gone`
record for the same name (the terminal-status override of tagger.py 231-235
applies `gone` even though the file exists). -/
theorem c3_done_counterexample :
    assocFind tgC3.logData nmA = some entryDoneB
    ∧ entryDoneB.status = Status.done
    ∧ (diskFind dskB nmA).isSome = true
    ∧ (MkvTagger.scan tgC3 dskB false).1.logData
        = [(nmA, { name := nmA, mtime := 1950000, size := 5, failed_count := 0
                   status := Status.gone })] := by
  decide

/-- C3 amended: a logged `done` record whose backing file is present keeps
status `done` through a scan, provided the in-memory table does not hold a
`gone` record under the same name: the merged set and the persisted log both
map the name to a `done` record. -/
theorem c3_done_preserved (tg : Tagger) (dir : List DiskFile) (reset : Bool)
    (n : String) (f : FileRec)
    (herr : MkvTagger.errorState tg = false)
    (hmem : (n, f) ∈ MkvTagger.loggedFiles tg)
    (hdone : f.status = Status.done)
    (hdisk : (diskFind dir n).isSome = true)
    (hmemtbl : ∀ m, assocFind tg.files n = some m → m.status ≠ Status.gone) :
    ∃ g : FileRec, (n, g) ∈ (MkvTagger.scan tg dir reset).2
      ∧ g.status = Status.done
      ∧ (g.name, File.toJson dir g) ∈ (MkvTagger.scan tg dir reset).1.logData
      ∧ (File.toJson dir g).status = Status.done := by
  have hg0 : (MkvTagger.markRec dir tg.files n f).status = Status.done := by
    rw [markRec_eq]
    show markStatus ((assocFind tg.files n).map FileRec.status) (diskFind dir n).isSome
        f.status = Status.done
    rw [hdisk, hdone]
    unfold markStatus
    cases hm : assocFind tg.files n with
    | none => simp
    | some m =>
      have hmne := hmemtbl m hm
      by_cases hms : m.status = Status.done ∨ m.status = Status.gone
      · rcases hms with hms | hms
        · simp [hms]
        · exact absurd hms hmne
      · simp [hms]
  have hg : MkvTagger.resetStep tg.now dir reset (MkvTagger.markRec dir tg.files n f)
      = MkvTagger.markRec dir tg.files n f := by
    unfold MkvTagger.resetStep
    rw [if_neg]
    rintro ⟨-, hns, -⟩
    exact hns (Or.inl hg0)
  have hkeep : MkvTagger.isTooOld tg.now dir (MkvTagger.markRec dir tg.files n f) = false := by
    unfold MkvTagger.isTooOld
    simp [hg0]
  have hpre : (n, MkvTagger.markRec dir tg.files n f) ∈ MkvTagger.preReset tg dir := by
    unfold MkvTagger.preReset
    apply List.mem_filter.mpr
    refine ⟨List.mem_map.mpr ⟨(n, f), List.mem_append_left _ hmem, rfl⟩, ?_⟩
    simp [hkeep]
  have hmerged : (n, MkvTagger.markRec dir tg.files n f) ∈ MkvTagger.mergedOf tg dir reset := by
    unfold MkvTagger.mergedOf
    have h0 := List.mem_map_of_mem
      (fun p => (p.1, MkvTagger.resetStep tg.now dir reset p.2)) hpre
    simpa [hg] using h0
  have hscan2 : (MkvTagger.scan tg dir reset).2 = MkvTagger.mergedOf tg dir reset := by
    unfold MkvTagger.scan
    simp [herr]
  have hscanlog : (MkvTagger.scan tg dir reset).1.logData
      = MkvTagger.scanLog tg dir reset := by
    unfold MkvTagger.scan
    simp [herr]
  refine ⟨MkvTagger.markRec dir tg.files n f, ?_, hg0, ?_, ?_⟩
  · rw [hscan2]
    exact hmerged
  · rw [hscanlog]
    unfold MkvTagger.scanLog
    exact List.mem_map.mpr ⟨(n, MkvTagger.markRec dir tg.files n f), hmerged, rfl⟩
  · show (MkvTagger.markRec dir tg.files n f).status = Status.done
    exact hg0

def tgC3w : Tagger :=
  { tgDone with
    logFile := some (LogContent.obj [(nmA, entryDoneB)])
    logData := [(nmA, entryDoneB)] }

/-- Witness for C3 (amended): with an empty in-memory table, a logged `done`
record backed by an on-disk file stays `done` through scan. -/
theorem c3_done_preserved_witness :
    ∃ g : FileRec, (nmA, g) ∈ (MkvTagger.scan tgC3w dskB false).2
      ∧ g.status = Status.done
      ∧ (g.name, File.toJson dskB g) ∈ (MkvTagger.scan tgC3w dskB false).1.logData
      ∧ (File.toJson dskB g).status = Status.done := by
  refine c3_done_preserved tgC3w dskB false nmA (File.fromJson entryDoneB)
    (by decide) (by decide) (by decide) (by decide) ?_
  intro m hm
  simp [assocFind, tgC3w, tgDone] at hm

/-! ### C8: entry-level view of the scan pipeline -/

/-- Whether one merged entry survives the pruning step of scan. -/
def kentry (now : Nat) (dir : List DiskFile) (mem : List (String × FileRec))
    (p : String × FileRec) : Bool :=
  !(MkvTagger.isTooOld now dir (MkvTagger.markRec dir mem p.1 p.2))

/-- The log-object entry that scan writes for one surviving merged entry. -/
def fentry (now : Nat) (dir : List DiskFile) (mem : List (String × FileRec)) (reset : Bool)
    (p : String × FileRec) : String × LogEntry :=
  ((MkvTagger.resetStep now dir reset (MkvTagger.markRec dir mem p.1 p.2)).name,
    File.toJson dir (MkvTagger.resetStep now dir reset (MkvTagger.markRec dir mem p.1 p.2)))

/-- Re-hydration of one persisted entry on the next read (`logged_files`). -/
def rentry (q : String × LogEntry) : String × FileRec :=
  (q.2.name, File.fromJson q.2)

theorem scanLog_eq (tg : Tagger) (dir : List DiskFile) (reset : Bool) :
    MkvTagger.scanLog tg dir reset
      = ((MkvTagger.loggedFiles tg ++ MkvTagger.newFiles tg dir).filter
          (kentry tg.now dir tg.files)).map (fentry tg.now dir tg.files reset) := by
  unfold MkvTagger.scanLog MkvTagger.mergedOf MkvTagger.preReset
  rw [List.filter_map, List.map_map, List.map_map]
  rfl

/-- The status written by the reset step, as a function of the decided
conditions. -/
def resetSt (rs od o60 fcOK : Bool) (s : Status) : Status :=
  if rs = true ∧ ¬(s = Status.done ∨ s = Status.gone) ∧ od = true ∧ o60 = true
      ∧ fcOK = true
  then Status.new else s

/-- Whether an entry with the given staleness flag and status is kept. -/
def keepSt (old : Bool) (s : Status) : Bool :=
  !((s == Status.gone) && old)

theorem resetStep_eq (now : Nat) (dir : List DiskFile) (reset : Bool) (f : FileRec) :
    MkvTagger.resetStep now dir reset f =
      { f with status := (resetSt reset (diskFind dir f.name).isSome
          (decide (60 < now - File.mtimeVal dir f)) (decide (f.failedCount < 3)) f.status) } := by
  unfold MkvTagger.resetStep resetSt
  by_cases h : reset = true ∧ ¬(f.status = Status.done ∨ f.status = Status.gone)
      ∧ (diskFind dir f.name).isSome = true ∧ 60 < now - File.mtimeVal dir f
      ∧ f.failedCount < 3
  · obtain ⟨h1, h2, h3, h4, h5⟩ := h
    rw [if_pos ⟨h1, h2, h3, h4, h5⟩, if_pos ⟨h1, h2, h3, by simpa using h4, by simpa using h5⟩]
  · rw [if_neg h, if_neg]
    rintro ⟨h1, h2, h3, h4, h5⟩
    exact h ⟨h1, h2, h3, by simpa using h4, by simpa using h5⟩

theorem mtimeVal_status (dir : List DiskFile) (f : FileRec) (s : Status) :
    File.mtimeVal dir { f with status := s } = File.mtimeVal dir f := rfl

theorem sizeVal_status (dir : List DiskFile) (f : FileRec) (s : Status) :
    File.sizeVal dir { f with status := s } = File.sizeVal dir f := rfl

theorem mtimeVal_rd (dir : List DiskFile) (f : FileRec) :
    File.mtimeVal dir (File.fromJson (File.toJson dir f)) = File.mtimeVal dir f := by
  unfold File.fromJson File.toJson File.mtimeVal
  cases h : diskFind dir f.name with
  | some d => simp [h]
  | none =>
    simp only [h]
    split_ifs <;> rfl

theorem sizeVal_rd (dir : List DiskFile) (f : FileRec) :
    File.sizeVal dir (File.fromJson (File.toJson dir f)) = File.sizeVal dir f := by
  unfold File.fromJson File.toJson File.sizeVal
  cases h : diskFind dir f.name with
  | some d => simp [h]
  | none =>
    simp only [h]
    split_ifs <;> rfl

theorem fromJson_name (e : LogEntry) : (File.fromJson e).name = e.name := rfl

theorem toJson_name (dir : List DiskFile) (f : FileRec) :
    (File.toJson dir f).name = f.name := rfl

theorem fromJson_status (e : LogEntry) : (File.fromJson e).status = e.status := rfl

theorem toJson_status_field (dir : List DiskFile) (f : FileRec) :
    (File.toJson dir f).status = f.status := rfl

theorem fromJson_fc (e : LogEntry) : (File.fromJson e).failedCount = e.failed_count := rfl

theorem toJson_fc (dir : List DiskFile) (f : FileRec) :
    (File.toJson dir f).failed_count = f.failedCount := rfl

theorem statusUpdate_name (f : FileRec) (s : Status) : ({ f with status := s }).name = f.name := rfl

theorem statusUpdate_status (f : FileRec) (s : Status) :
    ({ f with status := s }).status = s := rfl

theorem statusUpdate_fc (f : FileRec) (s : Status) :
    ({ f with status := s }).failedCount = f.failedCount := rfl

theorem keyStatus : ∀ (t : Option Status) (rs od o60 ottl fcOK : Bool) (s : Status),
    keepSt ottl (markStatus t od s) = true →
      keepSt ottl (markStatus t od (resetSt rs od o60 fcOK (markStatus t od s))) = true
      ∧ resetSt rs od o60 fcOK (markStatus t od (resetSt rs od o60 fcOK (markStatus t od s)))
        = resetSt rs od o60 fcOK (markStatus t od s) := by
  decide

theorem kentry_eq (now : Nat) (dir : List DiskFile) (mem : List (String × FileRec))
    (n : String) (f : FileRec) (hkey : n = f.name) :
    kentry now dir mem (n, f)
      = keepSt (decide (tooOldTtl < now - File.mtimeVal dir f))
          (markStatus ((assocFind mem f.name).map FileRec.status)
            (diskFind dir f.name).isSome f.status) := by
  subst hkey
  unfold kentry
  rw [markRec_eq]
  rfl

theorem fentry_eq (now : Nat) (dir : List DiskFile) (mem : List (String × FileRec))
    (reset : Bool) (n : String) (f : FileRec) (hkey : n = f.name) :
    fentry now dir mem reset (n, f)
      = (f.name, File.toJson dir
          { f with status := (resetSt reset (diskFind dir f.name).isSome
              (decide (60 < now - File.mtimeVal dir f)) (decide (f.failedCount < 3))
              (markStatus ((assocFind mem f.name).map FileRec.status)
                (diskFind dir f.name).isSome f.status)) }) := by
  subst hkey
  unfold fentry
  rw [markRec_eq, resetStep_eq]
  rfl

theorem kentry_rentry (now : Nat) (dir : List DiskFile) (mem : List (String × FileRec))
    (q : String × LogEntry) :
    kentry now dir mem (rentry q)
      = keepSt (decide (tooOldTtl < now - File.mtimeVal dir (File.fromJson q.2)))
          (markStatus ((assocFind mem q.2.name).map FileRec.status)
            (diskFind dir q.2.name).isSome q.2.status) := by
  unfold rentry
  rw [kentry_eq now dir mem q.2.name (File.fromJson q.2) rfl]
  exact rfl

theorem fentry_rentry (now : Nat) (dir : List DiskFile) (mem : List (String × FileRec))
    (reset : Bool) (q : String × LogEntry) :
    fentry now dir mem reset (rentry q)
      = (q.2.name, File.toJson dir
          { File.fromJson q.2 with status := (resetSt reset (diskFind dir q.2.name).isSome
              (decide (60 < now - File.mtimeVal dir (File.fromJson q.2)))
              (decide (q.2.failed_count < 3))
              (markStatus ((assocFind mem q.2.name).map FileRec.status)
                (diskFind dir q.2.name).isSome q.2.status)) }) := by
  unfold rentry
  rw [fentry_eq now dir mem reset q.2.name (File.fromJson q.2) rfl]
  exact rfl

theorem toJson_mtime (dir : List DiskFile) (f : FileRec) :
    (File.toJson dir f).mtime = File.mtimeVal dir f := rfl

theorem toJson_size (dir : List DiskFile) (f : FileRec) :
    (File.toJson dir f).size = File.sizeVal dir f := rfl

theorem toJson_rd_status (dir : List DiskFile) (g : FileRec) (s : Status) :
    File.toJson dir { File.fromJson (File.toJson dir g) with status := s }
      = File.toJson dir { g with status := s } := by
  ext
  · simp only [toJson_name, statusUpdate_name, fromJson_name]
  · simp only [toJson_mtime, mtimeVal_status, mtimeVal_rd]
  · simp only [toJson_size, sizeVal_status, sizeVal_rd]
  · simp only [toJson_fc, statusUpdate_fc, fromJson_fc]
  · simp only [toJson_status_field, statusUpdate_status]

theorem keyStability (now : Nat) (dir : List DiskFile) (mem : List (String × FileRec))
    (reset : Bool) (p : String × FileRec) (hkey : p.1 = p.2.name)
    (hk : kentry now dir mem p = true) :
    kentry now dir mem (rentry (fentry now dir mem reset p)) = true
    ∧ fentry now dir mem reset (rentry (fentry now dir mem reset p))
      = fentry now dir mem reset p := by
  obtain ⟨n, f⟩ := p
  have hkey2 : n = f.name := hkey
  subst hkey2
  rw [kentry_eq now dir mem f.name f rfl] at hk
  rw [fentry_eq now dir mem reset f.name f rfl]
  rw [kentry_rentry, fentry_rentry]
  simp only [toJson_name, statusUpdate_name, toJson_status_field, statusUpdate_status,
    toJson_fc, statusUpdate_fc, mtimeVal_rd, mtimeVal_status]
  have h := keyStatus ((assocFind mem f.name).map FileRec.status) reset
    (diskFind dir f.name).isSome (decide (60 < now - File.mtimeVal dir f))
    (decide (tooOldTtl < now - File.mtimeVal dir f)) (decide (f.failedCount < 3))
    f.status hk
  constructor
  · exact h.1
  · rw [h.2, toJson_rd_status]

theorem assocFind_eq_none {α : Type} (l : List (String × α)) (k : String)
    (h : assocFind l k = none) : ∀ p ∈ l, p.1 ≠ k := by
  induction l with
  | nil => intro p hp; cases hp
  | cons a t ih =>
    intro p hp
    unfold assocFind at h
    by_cases ha : a.1 = k
    · rw [if_pos ha] at h
      cases h
    · rw [if_neg ha] at h
      rcases List.mem_cons.mp hp with rfl | hp2
      · exact ha
      · exact ih h p hp2

theorem assocFind_some_mem {α : Type} (l : List (String × α)) (k : String) (v : α)
    (h : assocFind l k = some v) : (k, v) ∈ l := by
  induction l with
  | nil => cases h
  | cons a t ih =>
    unfold assocFind at h
    by_cases ha : a.1 = k
    · rw [if_pos ha] at h
      injection h with h2
      have hav : (k, v) = a := by
        rw [← ha, ← h2]
      exact List.mem_cons.mpr (Or.inl hav)
    · rw [if_neg ha] at h
      exact List.mem_cons.mpr (Or.inr (ih h))

theorem scanLog_entry (tg : Tagger) (dir : List DiskFile) (reset : Bool)
    (q : String × LogEntry) (hq : q ∈ MkvTagger.scanLog tg dir reset) :
    ∃ p, p ∈ MkvTagger.loggedFiles tg ++ MkvTagger.newFiles tg dir
      ∧ p.1 = p.2.name
      ∧ kentry tg.now dir tg.files p = true
      ∧ q = fentry tg.now dir tg.files reset p := by
  rw [scanLog_eq] at hq
  obtain ⟨p, hp, hpe⟩ := List.mem_map.mp hq
  have hpf := List.mem_filter.mp hp
  exact ⟨p, hpf.1, mem_input_key tg dir p hpf.1, hpf.2, hpe.symm⟩

theorem resetSt_gone : ∀ (rs od o60 fcOK : Bool) (s : Status),
    resetSt rs od o60 fcOK s = Status.gone → s = Status.gone := by
  decide

theorem markStatus_onDisk_gone : ∀ (t : Option Status) (s : Status),
    markStatus t true s = Status.gone → t = some Status.gone ∨ s = Status.gone := by
  decide

theorem markStatus_someGone : ∀ s : Status,
    markStatus (some Status.gone) true s = Status.gone := by
  decide

theorem keepSt_gone : ∀ old : Bool, keepSt old Status.gone = true → old = false := by
  decide

theorem keepSt_false : ∀ (old : Bool) (s : Status),
    keepSt old s = false ↔ (s = Status.gone ∧ old = true) := by
  decide

theorem mtimeVal_onDisk (dir : List DiskFile) (f : FileRec) (d0 : DiskFile)
    (h : diskFind dir f.name = some d0) : File.mtimeVal dir f = d0.mtime := by
  unfold File.mtimeVal
  rw [h]

theorem ofDisk_name (d : DiskFile) : (File.ofDisk d).name = d.name := rfl

theorem ofDisk_status (d : DiskFile) : (File.ofDisk d).status = Status.new := rfl

/-- No entry written by a scan is both `gone` and stale while its backing file
is in the directory listing: scan would have pruned it. -/
def goneFresh (now : Nat) (dir : List DiskFile) (L : List (String × LogEntry)) : Prop :=
  ∀ q ∈ L, q.2.status = Status.gone →
    ∀ d, diskFind dir q.2.name = some d → ¬(tooOldTtl < now - d.mtime)

theorem scanLog_fresh (tg : Tagger) (dir : List DiskFile) (reset : Bool) :
    goneFresh tg.now dir (MkvTagger.scanLog tg dir reset) := by
  intro q hq hgone d hd
  obtain ⟨p, hin, hkey, hk, hqe⟩ := scanLog_entry tg dir reset q hq
  obtain ⟨n, f⟩ := p
  have hkey2 : n = f.name := hkey
  subst hkey2
  subst hqe
  rw [fentry_eq tg.now dir tg.files reset f.name f rfl] at hgone hd
  simp only [toJson_status_field, statusUpdate_status] at hgone
  simp only [toJson_name, statusUpdate_name] at hd
  have hmark := resetSt_gone _ _ _ _ _ hgone
  rw [kentry_eq tg.now dir tg.files f.name f rfl, hmark] at hk
  have hold := keepSt_gone _ hk
  have hμ : File.mtimeVal dir f = d.mtime := mtimeVal_onDisk dir f d hd
  intro hcon
  rw [← hμ] at hcon
  simp only [decide_eq_false_iff_not] at hold
  exact hold hcon

theorem scanLog_stable (T T2 : Tagger) (dir : List DiskFile) (reset : Bool)
    (herr : MkvTagger.errorState T = false)
    (herr2 : MkvTagger.errorState T2 = false)
    (hnow : T2.now = T.now)
    (hfiles : T2.files = T.files)
    (hdata : T2.logData = MkvTagger.scanLog T dir reset)
    (hfresh : goneFresh T.now dir T.logData) :
    MkvTagger.scanLog T2 dir reset = MkvTagger.scanLog T dir reset := by
  have hlog : MkvTagger.loggedFiles T2 = (MkvTagger.scanLog T dir reset).map rentry := by
    unfold MkvTagger.loggedFiles
    rw [herr2, hdata]
    rfl
  rw [scanLog_eq T2 dir reset, hnow, hfiles, hlog, List.filter_append, List.map_append]
  have hA : (((MkvTagger.scanLog T dir reset).map rentry).filter
      (kentry T.now dir T.files)).map (fentry T.now dir T.files reset)
      = MkvTagger.scanLog T dir reset := by
    rw [List.filter_map, List.map_map]
    have h1 : (MkvTagger.scanLog T dir reset).filter
        (kentry T.now dir T.files ∘ rentry) = MkvTagger.scanLog T dir reset := by
      apply List.filter_eq_self.mpr
      intro q hq
      obtain ⟨p, hin, hkey, hk, hqe⟩ := scanLog_entry T dir reset q hq
      have hstab := keyStability T.now dir T.files reset p hkey hk
      show kentry T.now dir T.files (rentry q) = true
      rw [hqe]
      exact hstab.1
    rw [h1]
    have h2 : ∀ q ∈ MkvTagger.scanLog T dir reset,
        (fentry T.now dir T.files reset ∘ rentry) q = id q := by
      intro q hq
      obtain ⟨p, hin, hkey, hk, hqe⟩ := scanLog_entry T dir reset q hq
      have hstab := keyStability T.now dir T.files reset p hkey hk
      show fentry T.now dir T.files reset (rentry q) = q
      rw [hqe]
      exact hstab.2
    rw [List.map_congr_left h2, List.map_id]
  have hB : (MkvTagger.newFiles T2 dir).filter (kentry T.now dir T.files) = [] := by
    apply List.filter_eq_nil_iff.mpr
    intro x hx
    unfold MkvTagger.newFiles at hx
    obtain ⟨hxd, hxn⟩ := List.mem_filter.mp hx
    rw [hlog] at hxn
    have hnone : assocFind ((MkvTagger.scanLog T dir reset).map rentry) x.1 = none :=
      Option.isNone_iff_eq_none.mp hxn
    have hnoq : ∀ q ∈ MkvTagger.scanLog T dir reset, q.2.name ≠ x.1 := by
      intro q hq hqn
      exact assocFind_eq_none _ x.1 hnone (rentry q) (List.mem_map_of_mem rentry hq) hqn
    have hnok : ∀ p ∈ MkvTagger.loggedFiles T ++ MkvTagger.newFiles T dir,
        p.1 = x.1 → kentry T.now dir T.files p = false := by
      intro p hp hpx
      cases hkp : kentry T.now dir T.files p with
      | false => rfl
      | true =>
        exfalso
        have hqmem : fentry T.now dir T.files reset p ∈ MkvTagger.scanLog T dir reset := by
          rw [scanLog_eq]
          exact List.mem_map_of_mem _ (List.mem_filter.mpr ⟨hp, hkp⟩)
        have hkeyp := mem_input_key T dir p hp
        have hname : (fentry T.now dir T.files reset p).2.name = p.1 := by
          obtain ⟨n, f⟩ := p
          have h2 : n = f.name := hkeyp
          subst h2
          rw [fentry_eq T.now dir T.files reset f.name f rfl]
          rfl
        exact hnoq _ hqmem (by rw [hname, hpx])
    unfold MkvTagger.dirFileRecs at hxd
    obtain ⟨d, hdmem, hdx⟩ := List.mem_map.mp hxd
    subst hdx
    have hod : (diskFind dir d.name).isSome = true := by
      unfold diskFind
      exact List.find?_isSome.mpr ⟨d, hdmem, by simp⟩
    cases hc : assocFind (MkvTagger.loggedFiles T) d.name with
    | none =>
      have hxin : (d.name, File.ofDisk d) ∈ MkvTagger.newFiles T dir := by
        unfold MkvTagger.newFiles
        refine List.mem_filter.mpr ⟨?_, ?_⟩
        · unfold MkvTagger.dirFileRecs
          exact List.mem_map_of_mem _ hdmem
        · simp [hc]
      have hkx := hnok _ (List.mem_append_right _ hxin) rfl
      simp [hkx]
    | some pf =>
      have hpmem : (d.name, pf) ∈ MkvTagger.loggedFiles T := assocFind_some_mem _ _ _ hc
      have hinp := List.mem_append_left (MkvTagger.newFiles T dir) hpmem
      have hkf := hnok _ hinp rfl
      have hkey : d.name = pf.name := mem_input_key T dir (d.name, pf) hinp
      rw [kentry_eq T.now dir T.files d.name pf hkey] at hkf
      rw [← hkey] at hkf
      rw [hod] at hkf
      obtain ⟨hmg, hmo⟩ := (keepSt_false _ _).mp hkf
      rw [kentry_eq T.now dir T.files d.name (File.ofDisk d) rfl]
      simp only [ofDisk_name, ofDisk_status]
      rw [hod]
      have hμ : File.mtimeVal dir (File.ofDisk d) = File.mtimeVal dir pf := by
        cases hfd : diskFind dir d.name with
        | some d0 =>
          rw [mtimeVal_onDisk dir (File.ofDisk d) d0 (by rw [ofDisk_name]; exact hfd),
            mtimeVal_onDisk dir pf d0 (by rw [← hkey]; exact hfd)]
        | none =>
          rw [hfd] at hod
          simp at hod
      rw [hμ]
      rcases markStatus_onDisk_gone _ _ hmg with ht | hs
      · rw [ht, markStatus_someGone, hmo]
        simp [keepSt]
      · exfalso
        have hlogT : MkvTagger.loggedFiles T
            = T.logData.map (fun p => (p.2.name, File.fromJson p.2)) := by
          unfold MkvTagger.loggedFiles
          rw [herr]
          rfl
        rw [hlogT] at hpmem
        obtain ⟨en, hen, hene⟩ := List.mem_map.mp hpmem
        have hen1 := congrArg Prod.fst hene
        have hen2 := congrArg Prod.snd hene
        have hen1a : en.2.name = d.name := hen1
        have hen2a : File.fromJson en.2 = pf := hen2
        have hgone : en.2.status = Status.gone := by
          rw [← fromJson_status en.2, hen2a]
          exact hs
        cases hfd : diskFind dir d.name with
        | none =>
          rw [hfd] at hod
          simp at hod
        | some d0 =>
          have hfr := hfresh en hen hgone d0 (by rw [hen1a]; exact hfd)
          have hμ2 : File.mtimeVal dir pf = d0.mtime :=
            mtimeVal_onDisk dir pf d0 (by rw [← hkey]; exact hfd)
          rw [hμ2] at hmo
          simp only [decide_eq_true_eq] at hmo
          exact hfr hmo
  rw [hA, hB, List.map_nil, List.append_nil]

theorem scan_scan_logFile (T : Tagger) (dir : List DiskFile) (reset : Bool)
    (herrT : MkvTagger.errorState T = false)
    (hfresh : goneFresh T.now dir T.logData) :
    (MkvTagger.scan (MkvTagger.scan T dir reset).1 dir reset).1.logFile
      = (MkvTagger.scan T dir reset).1.logFile := by
  have h1 : (MkvTagger.scan T dir reset).1
      = { T with logFile := some (LogContent.obj (MkvTagger.scanLog T dir reset))
                 logData := MkvTagger.scanLog T dir reset } := by
    unfold MkvTagger.scan
    simp [herrT]
  rw [h1]
  have herr2 : MkvTagger.errorState
      { T with logFile := some (LogContent.obj (MkvTagger.scanLog T dir reset))
               logData := MkvTagger.scanLog T dir reset } = false := herrT
  have h2 : (MkvTagger.scan
      { T with logFile := some (LogContent.obj (MkvTagger.scanLog T dir reset))
               logData := MkvTagger.scanLog T dir reset } dir reset).1.logFile
      = some (LogContent.obj (MkvTagger.scanLog
        { T with logFile := some (LogContent.obj (MkvTagger.scanLog T dir reset))
                 logData := MkvTagger.scanLog T dir reset } dir reset)) := by
    unfold MkvTagger.scan
    simp [herr2]
  rw [h2]
  rw [scanLog_stable T _ dir reset herrT herr2 rfl rfl rfl hfresh]

def nmX : String := "x.mkv"

def entryGoneOld : LogEntry :=
  { name := nmX, mtime := 10, size := 5, failed_count := 0, status := Status.gone }

def dskX : List DiskFile :=
  [{ name := nmX, mtime := 10, size := 5 }]

def tgC8 : Tagger :=
  { now := 200000, timer := 30, exc := false, errorTs := 0, logFileErrorCount := 0
    logFile := some (LogContent.obj [(nmX, entryGoneOld)])
    logData := [(nmX, entryGoneOld)]
    files := [], isProcessing := false, activeFile := none }

/-- Counterexample to C8: with a logged `gone` record whose backing file is
back on disk with an old mtime, the first scan prunes the record (the
`is_too_old` test ignores disk presence) while the second scan re-adds the
file as `new`, so the persisted content of two successive scans differs even
though nothing on disk changed between them. -/
theorem c8_scan_counterexample :
    (MkvTagger.scan (MkvTagger.scan tgC8 dskX false).1 dskX false).1.logFile
      ≠ (MkvTagger.scan tgC8 dskX false).1.logFile := by
  decide

/-- C8 amended: reconciliation is byte-stable from the second run onward —
the third scan writes log content identical to the second — but the first
pair of runs can differ when the first prunes a stale `gone` record whose
file is still on disk and the second re-adds it as `new`.  A log produced by
a scan never contains such a record (`scanLog_fresh`), which is why
stability holds from then on. -/
theorem c8_scan_idempotent_from_second (tg : Tagger) (dir : List DiskFile) (reset : Bool) :
    (MkvTagger.scan (MkvTagger.scan (MkvTagger.scan tg dir reset).1 dir reset).1
        dir reset).1.logFile
      = (MkvTagger.scan (MkvTagger.scan tg dir reset).1 dir reset).1.logFile := by
  by_cases herr : MkvTagger.errorState tg = true
  · have h1 : MkvTagger.scan tg dir reset = (tg, []) := by
      unfold MkvTagger.scan
      simp [herr]
    simp [h1]
  · have herr1 : MkvTagger.errorState tg = false := by
      simpa using herr
    have h1 : (MkvTagger.scan tg dir reset).1
        = { tg with logFile := some (LogContent.obj (MkvTagger.scanLog tg dir reset))
                    logData := MkvTagger.scanLog tg dir reset } := by
      unfold MkvTagger.scan
      simp [herr1]
    rw [h1]
    exact scan_scan_logFile _ dir reset herr1 (scanLog_fresh tg dir reset)
